import Mathlib

/-!
Verification of the download-negotiation server (`server.js`): the format
selection pipeline of the `/api/info` handler, the filename and argument
construction of the `/api/download` handler, the Content-Length hint, and the
rate limiter configuration.  JavaScript-specific behaviour (falsy values,
`parseInt`, stable `Array.prototype.sort`) is embedded explicitly.
-/

/-- One encoding variant as reported by the external tool's metadata fetch
(an element of `metadata.formats` in `server.js`).  Optional JSON fields are
`Option`s; `vcodec` is the string reported by the tool (the tool reports
`"none"` for formats that carry no video codec). -/
structure RawFormat where
  format_id : String
  ext : String
  resolution : String
  format_note : Option String := none
  height : Option Nat := none
  vcodec : String
  filesize : Option Nat := none
  filesize_approx : Option Nat := none
deriving DecidableEq, Repr

/-- One user-facing format choice (the objects built by the `.map` of the
`/api/info` handler, lines 88-93 of `server.js`). -/
structure PresentedFormat where
  format_id : String
  extension : String
  resolution : String
  quality_label : String
deriving DecidableEq, Repr

/-- JavaScript string rendering of the number-or-undefined `f.height` inside
the string concatenation `f.height + 'p'`: an absent property renders as
`"undefined"`. -/
def jsNumberToString : Option Nat → String
  | none => "undefined"
  | some n => toString n

/-- `f.format_note || f.height + 'p'` (line 92): JS `||` falls through on the
falsy values `undefined` and `""`. -/
def qualityLabel (f : RawFormat) : String :=
  match f.format_note with
  | some s => if s = "" then jsNumberToString f.height ++ "p" else s
  | none => jsNumberToString f.height ++ "p"

/-- The object literal of the `.map` callback (lines 88-93). -/
def presentFormat (f : RawFormat) : PresentedFormat :=
  { format_id := f.format_id
    extension := f.ext
    resolution := f.resolution
    quality_label := qualityLabel f }

/-- The `.filter` predicate of line 87:
`f.vcodec !== 'none' && f.resolution !== 'audio only'`. -/
def keepRaw (f : RawFormat) : Bool :=
  f.vcodec != "none" && f.resolution != "audio only"

/-- Filter and map stages of the pipeline (lines 86-93). -/
def mappedFormats (raw : List RawFormat) : List PresentedFormat :=
  (raw.filter keepRaw).map presentFormat

/-- The comparison inside the dedup callback of line 94:
`t.resolution === v.resolution && t.extension === v.extension`. -/
def samePair (t v : PresentedFormat) : Bool :=
  t.resolution == v.resolution && t.extension == v.extension

/-- The dedup stage of line 94:
`.filter((v, i, a) => a.findIndex(t => samePair t v) === i)`. -/
def dedupFormats (a : List PresentedFormat) : List PresentedFormat :=
  (a.enum.filter (fun p => a.findIdx (fun t => samePair t p.2) == p.1)).map Prod.snd

/-- The whitespace characters `parseInt` skips (ECMAScript WhiteSpace and
LineTerminator). -/
def jsWhitespaceChars : List Char :=
  [Char.ofNat 0x9, Char.ofNat 0xa, Char.ofNat 0xb, Char.ofNat 0xc, Char.ofNat 0xd,
   Char.ofNat 0x20, Char.ofNat 0xa0, Char.ofNat 0x1680,
   Char.ofNat 0x2000, Char.ofNat 0x2001, Char.ofNat 0x2002, Char.ofNat 0x2003,
   Char.ofNat 0x2004, Char.ofNat 0x2005, Char.ofNat 0x2006, Char.ofNat 0x2007,
   Char.ofNat 0x2008, Char.ofNat 0x2009, Char.ofNat 0x200a,
   Char.ofNat 0x2028, Char.ofNat 0x2029, Char.ofNat 0x202f, Char.ofNat 0x205f,
   Char.ofNat 0x3000, Char.ofNat 0xfeff]

/-- Value of a character as a base-16 digit, if it is one. -/
def hexDigitValue? (c : Char) : Option Nat :=
  if '0' ≤ c ∧ c ≤ '9' then some (c.toNat - '0'.toNat)
  else if 'a' ≤ c ∧ c ≤ 'f' then some (c.toNat - 'a'.toNat + 10)
  else if 'A' ≤ c ∧ c ≤ 'F' then some (c.toNat - 'A'.toNat + 10)
  else none

/-- Value of a character as a digit in the given radix (10 or 16), if it is one. -/
def digitValue? (radix : Nat) (c : Char) : Option Nat :=
  match hexDigitValue? c with
  | some v => if v < radix then some v else none
  | none => none

/-- Numeric value of a digit string in the given radix. -/
def digitsValue (radix : Nat) (l : List Char) : Nat :=
  l.foldl (fun acc c => acc * radix + (digitValue? radix c).getD 0) 0

/-- `parseInt(s) || 0` as used in the sort comparator of line 95: skip leading
whitespace, read an optional sign, honour a `0x`/`0X` hex marker, take the
longest digit run; no digits (`NaN`) and `-0` both collapse to `0` under
`|| 0`. -/
def jsParseIntOr0 (s : String) : Int :=
  let l := s.data.dropWhile (fun c => jsWhitespaceChars.contains c)
  let sl : Int × List Char :=
    match l with
    | '-' :: r => (-1, r)
    | '+' :: r => (1, r)
    | _ => (1, l)
  let rl : Nat × List Char :=
    match sl.2 with
    | '0' :: 'x' :: r => (16, r)
    | '0' :: 'X' :: r => (16, r)
    | _ => (10, sl.2)
  let ds := rl.2.takeWhile (fun c => (digitValue? rl.1 c).isSome)
  if ds = [] then 0 else sl.1 * (digitsValue rl.1 ds : Int)

/-- The sort key of the comparator on line 95: `parseInt(x.resolution) || 0`. -/
def sortKey (x : PresentedFormat) : Int := jsParseIntOr0 x.resolution

/-- `a` may precede `b` under the comparator `(a, b) => sortKey b - sortKey a`
(line 95): descending by key. -/
def selLe (a b : PresentedFormat) : Prop := sortKey b ≤ sortKey a

instance : DecidableRel selLe :=
  fun a b => inferInstanceAs (Decidable (sortKey b ≤ sortKey a))

instance : IsTotal PresentedFormat selLe := ⟨fun a b => le_total (sortKey b) (sortKey a)⟩

instance : IsTrans PresentedFormat selLe := ⟨fun _ _ _ h1 h2 => le_trans h2 h1⟩

/-- The `.sort` of line 95.  ECMAScript `Array.prototype.sort` with a
consistent comparator produces the unique stably sorted order; insertion sort
is stable for the total preorder `selLe`, so it computes exactly that order. -/
def sortedFormats (l : List PresentedFormat) : List PresentedFormat :=
  l.insertionSort selLe

/-- The synthetic audio entry `unshift`ed on lines 99-104. -/
def mp3Entry : PresentedFormat :=
  { format_id := "mp3", extension := "mp3", resolution := "Audio Only",
    quality_label := "MP3 Extraction" }

/-- The whole format pipeline of the `/api/info` handler (lines 86-104):
filter, map, dedup, sort, `slice(0, 8)`, and `unshift` of the MP3 entry. -/
def selectFormats (raw : List RawFormat) : List PresentedFormat :=
  mp3Entry :: (sortedFormats (dedupFormats (mappedFormats raw))).take 8

/-- Claim C1: for every raw format list the Format Selector output has at most
9 entries and its first entry is the synthetic MP3 entry; for the empty raw
list the output is exactly the singleton MP3 entry. -/
theorem c1_selectFormats_card_head :
    (∀ raw : List RawFormat, (selectFormats raw).length ≤ 9 ∧
      (selectFormats raw).head? = some mp3Entry) ∧
    selectFormats [] = [mp3Entry] := by
  refine ⟨fun raw => ⟨?_, rfl⟩, rfl⟩
  simp only [selectFormats, List.length_cons, List.length_take]
  have h := Nat.min_le_left 8 (sortedFormats (dedupFormats (mappedFormats raw))).length
  omega

/-- Claim C2: ignoring the prepended MP3 entry, the Format Selector output is
ordered non-increasingly by the numeric prefix of the resolution field (as the
comparator's `parseInt` reads it, a resolution without a numeric prefix
counting as zero). -/
theorem c2_selectFormats_sorted (raw : List RawFormat) :
    List.Pairwise (fun a b : PresentedFormat =>
      jsParseIntOr0 b.resolution ≤ jsParseIntOr0 a.resolution)
      ((selectFormats raw).tail) := by
  have hs : List.Pairwise selLe (sortedFormats (dedupFormats (mappedFormats raw))) :=
    List.sorted_insertionSort selLe _
  have ht : ((sortedFormats (dedupFormats (mappedFormats raw))).take 8).Pairwise selLe :=
    List.Pairwise.sublist (List.take_sublist _ _) hs
  simpa [selectFormats, selLe, sortKey] using ht

theorem samePair_symm {x y : PresentedFormat} (h : samePair x y = true) :
    samePair y x = true := by
  simp only [samePair, Bool.and_eq_true, beq_iff_eq] at h ⊢
  exact ⟨h.1.symm, h.2.symm⟩

theorem samePair_eq_false_iff (x y : PresentedFormat) :
    samePair x y = false ↔
      ¬(x.resolution = y.resolution ∧ x.extension = y.extension) := by
  rw [← Bool.not_eq_true]
  simp [samePair]

theorem findIdx_le_of_getElem {α : Type} {p : α → Bool} {a : List α} {i : Nat}
    (h : i < a.length) (hp : p a[i] = true) : a.findIdx p ≤ i := by
  by_contra hlt
  push_neg at hlt
  have hfalse := List.not_of_lt_findIdx hlt
  rw [hp] at hfalse
  exact absurd hfalse (by simp)

/-- Entries kept by the dedup stage have pairwise distinct
(resolution, extension) pairs. -/
theorem dedupFormats_pairwise (a : List PresentedFormat) :
    List.Pairwise (fun x y => samePair x y = false) (dedupFormats a) := by
  rw [dedupFormats, List.pairwise_map]
  have henum : a.enum.Pairwise (fun p q => p.1 < q.1) := by
    rw [List.pairwise_iff_getElem]
    intro i j hi hj hij
    simpa [List.getElem_enum] using hij
  have hfilt := henum.filter (fun p => a.findIdx (fun t => samePair t p.2) == p.1)
  rw [List.pairwise_iff_getElem] at hfilt ⊢
  intro i j hi hj hij
  have hxm := List.mem_filter.mp (List.getElem_mem hi)
  have hym := List.mem_filter.mp (List.getElem_mem hj)
  have hlt := hfilt i j hi hj hij
  rcases hpi : (a.enum.filter (fun p => a.findIdx (fun t => samePair t p.2) == p.1))[i]
    with ⟨i1, x2⟩
  rcases hpj : (a.enum.filter (fun p => a.findIdx (fun t => samePair t p.2) == p.1))[j]
    with ⟨j1, y2⟩
  rw [hpi] at hxm hlt
  rw [hpj] at hym hlt
  rw [hpi, hpj]
  simp only at hxm hym hlt ⊢
  have hget : a[i1]? = some x2 := List.mk_mem_enum_iff_getElem?.mp hxm.1
  have hxP : a.findIdx (fun t => samePair t x2) = i1 := by
    have := hxm.2
    simpa using this
  have hyP : a.findIdx (fun t => samePair t y2) = j1 := by
    have := hym.2
    simpa using this
  by_contra hcontra
  have hsp : samePair x2 y2 = true := by
    cases hv : samePair x2 y2
    · exact absurd hv hcontra
    · rfl
  obtain ⟨hilen, hieq⟩ := List.getElem?_eq_some.mp hget
  have hple : a.findIdx (fun t => samePair t y2) ≤ i1 := by
    apply findIdx_le_of_getElem hilen
    rw [hieq]
    exact hsp
  rw [hyP] at hple
  omega

/-- Every entry kept by the dedup stage is the first entry of the input with
its (resolution, extension) pair. -/
theorem dedupFormats_first_occ {a : List PresentedFormat} {x : PresentedFormat}
    (h : x ∈ dedupFormats a) :
    ∃ pre post, a = pre ++ x :: post ∧ ∀ y ∈ pre, samePair y x = false := by
  simp only [dedupFormats, List.mem_map, List.mem_filter] at h
  obtain ⟨⟨i, v⟩, ⟨hmem, hP⟩, hsnd⟩ := h
  subst hsnd
  have hget : a[i]? = some v := List.mk_mem_enum_iff_getElem?.mp hmem
  obtain ⟨hilen, hieq⟩ := List.getElem?_eq_some.mp hget
  have hPi : a.findIdx (fun t => samePair t v) = i := by simpa using hP
  refine ⟨a.take i, a.drop (i + 1), ?_, ?_⟩
  · rw [← hieq, ← List.drop_eq_getElem_cons hilen, List.take_append_drop]
  · intro y hy
    obtain ⟨k, hk, hky⟩ := List.mem_take_iff_getElem.mp hy
    have hklt : k < a.findIdx (fun t => samePair t v) := by
      rw [hPi]
      omega
    have := List.not_of_lt_findIdx hklt
    rwa [hky] at this

/-- A raw format whose (resolution, extension) pair collides with the
synthetic MP3 entry: the filter of line 87 compares case sensitively, so the
resolution "Audio Only" passes it. -/
def audioOnlyCased : RawFormat :=
  { format_id := "f1", ext := "mp3", resolution := "Audio Only",
    format_note := some "collides", vcodec := "h264" }

/-- Claim C3, counterexample: for the raw list `[audioOnlyCased]` the Format
Selector output contains the pair ("Audio Only", "mp3") twice — in the
prepended synthetic MP3 entry and in the kept input entry — so the output does
not contain at most one entry per (resolution, extension) pair. -/
theorem c3_counterexample :
    ¬ List.Pairwise (fun x y : PresentedFormat =>
        ¬(x.resolution = y.resolution ∧ x.extension = y.extension))
      (selectFormats [audioOnlyCased]) := by decide

/-- Claim C3 (amended): ignoring the prepended synthetic MP3 entry (which can
duplicate the pair of a kept entry), the Format Selector output contains at
most one entry per (resolution, extension) pair, and every such output entry
is the first entry carrying its pair in the filtered-and-mapped input order. -/
theorem c3_dedup_amended (raw : List RawFormat) :
    List.Pairwise (fun x y : PresentedFormat =>
        ¬(x.resolution = y.resolution ∧ x.extension = y.extension))
      ((selectFormats raw).tail) ∧
    ∀ x ∈ (selectFormats raw).tail,
      ∃ pre post, mappedFormats raw = pre ++ x :: post ∧
        ∀ y ∈ pre, ¬(y.resolution = x.resolution ∧ y.extension = x.extension) := by
  have hd : List.Pairwise (fun x y : PresentedFormat =>
      ¬(x.resolution = y.resolution ∧ x.extension = y.extension))
      (dedupFormats (mappedFormats raw)) :=
    (dedupFormats_pairwise (mappedFormats raw)).imp
      (fun h => (samePair_eq_false_iff _ _).mp h)
  have hsymm : ∀ {x y : PresentedFormat},
      ¬(x.resolution = y.resolution ∧ x.extension = y.extension) →
      ¬(y.resolution = x.resolution ∧ y.extension = x.extension) :=
    fun h hc => h ⟨hc.1.symm, hc.2.symm⟩
  have hperm := List.perm_insertionSort selLe (dedupFormats (mappedFormats raw))
  have hsort := (List.Perm.pairwise_iff hsymm hperm).mpr hd
  have htail : (selectFormats raw).tail =
      (sortedFormats (dedupFormats (mappedFormats raw))).take 8 := rfl
  constructor
  · rw [htail]
    exact List.Pairwise.sublist (List.take_sublist 8 _) hsort
  · intro x hx
    rw [htail] at hx
    have hx' : x ∈ sortedFormats (dedupFormats (mappedFormats raw)) :=
      List.mem_of_mem_take hx
    have hxd : x ∈ dedupFormats (mappedFormats raw) := hperm.subset hx'
    obtain ⟨pre, post, heq, hpre⟩ := dedupFormats_first_occ hxd
    exact ⟨pre, post, heq, fun y hy => (samePair_eq_false_iff _ _).mp (hpre y hy)⟩

/-- A well-behaved raw format used in concrete witnesses. -/
def plainFormat : RawFormat :=
  { format_id := "135", ext := "mp4", resolution := "854x480",
    format_note := some "480p", height := some 480, vcodec := "avc1" }

/-- Witness for the amended C3 at a concrete input. -/
theorem c3_witness :
    ∃ pre post, mappedFormats [plainFormat] = pre ++ presentFormat plainFormat :: post ∧
      ∀ y ∈ pre, ¬(y.resolution = (presentFormat plainFormat).resolution ∧
        y.extension = (presentFormat plainFormat).extension) :=
  (c3_dedup_amended [plainFormat]).2 (presentFormat plainFormat) (by decide)

/-- Claim C9: the filter stage keeps exactly the raw entries that have a video
codec (a `vcodec` other than "none") and a resolution other than the literal
"audio only"; consequently every non-synthetic Format Selector output entry
arises from such an input entry. -/
theorem c9_filter_exact (raw : List RawFormat) :
    (∀ f : RawFormat, f ∈ raw.filter keepRaw ↔
        f ∈ raw ∧ f.vcodec ≠ "none" ∧ f.resolution ≠ "audio only") ∧
    ∀ x ∈ (selectFormats raw).tail, ∃ g ∈ raw,
      g.vcodec ≠ "none" ∧ g.resolution ≠ "audio only" ∧ x = presentFormat g := by
  constructor
  · intro f
    simp [List.mem_filter, keepRaw, and_assoc]
  · intro x hx
    have htail : (selectFormats raw).tail =
        (sortedFormats (dedupFormats (mappedFormats raw))).take 8 := rfl
    rw [htail] at hx
    have hx' : x ∈ sortedFormats (dedupFormats (mappedFormats raw)) :=
      List.mem_of_mem_take hx
    have hxd : x ∈ dedupFormats (mappedFormats raw) :=
      (List.perm_insertionSort selLe _).subset hx'
    have hxm : x ∈ mappedFormats raw := by
      obtain ⟨pre, post, heq, _⟩ := dedupFormats_first_occ hxd
      rw [heq]
      exact List.mem_append_right _ (List.mem_cons_self _ _)
    simp only [mappedFormats, List.mem_map, List.mem_filter, keepRaw,
      Bool.and_eq_true, bne_iff_ne, ne_eq] at hxm
    obtain ⟨g, ⟨hg, h1, h2⟩, hgx⟩ := hxm
    exact ⟨g, hg, h1, h2, hgx.symm⟩

/-- Witness for C9 at a concrete input. -/
theorem c9_witness :
    ∃ g ∈ [plainFormat], g.vcodec ≠ "none" ∧ g.resolution ≠ "audio only" ∧
      presentFormat plainFormat = presentFormat g :=
  (c9_filter_exact [plainFormat]).2 (presentFormat plainFormat) (by decide)

/-- Claim C10: a raw format that passes the filter and has no format_note gets
the quality label `height + 'p'` with JavaScript's rendering of the height
field — in particular the literal "undefinedp" when the height is also absent
— and the entry is still presented, no error being raised. -/
theorem c10_quality_label (f : RawFormat) (raw : List RawFormat)
    (hnote : f.format_note = none) :
    (presentFormat f).quality_label = jsNumberToString f.height ++ "p" ∧
    (f.height = none → (presentFormat f).quality_label = "undefinedp") ∧
    (f ∈ raw → keepRaw f = true → presentFormat f ∈ mappedFormats raw) := by
  refine ⟨?_, ?_, ?_⟩
  · simp [presentFormat, qualityLabel, hnote]
  · intro hh
    simp [presentFormat, qualityLabel, hnote, hh, jsNumberToString]
  · intro hmem hkeep
    exact List.mem_map_of_mem _ (List.mem_filter.mpr ⟨hmem, hkeep⟩)

/-- A raw format with neither a format_note nor a height. -/
def notelessFormat : RawFormat :=
  { format_id := "f2", ext := "mp4", resolution := "640x480", vcodec := "avc1" }

/-- Witness for C10 at a concrete input. -/
theorem c10_witness :
    (presentFormat notelessFormat).quality_label = "undefinedp" ∧
    presentFormat notelessFormat ∈ mappedFormats [notelessFormat] :=
  ⟨(c10_quality_label notelessFormat [notelessFormat] rfl).2.1 rfl,
   (c10_quality_label notelessFormat [notelessFormat] rfl).2.2 (by simp) rfl⟩

/-- A character kept by `title.replace(/[^\w\s-]/g, '')` (line 136): the regex
class `\w` is the ASCII word characters, `\s` is the JS whitespace class, and
the hyphen is kept. -/
def keepFilenameChar (c : Char) : Bool :=
  ('a' ≤ c && c ≤ 'z') || ('A' ≤ c && c ≤ 'Z') || ('0' ≤ c && c ≤ '9') || c == '_'
    || jsWhitespaceChars.contains c || c == '-'

/-- The filename derivation of lines 135-136: strip the title and append
".mp3" when the requested format is the literal "mp3", ".mp4" otherwise. -/
def downloadFilename (title : String) (formatId : String) : String :=
  String.mk (title.data.filter keepFilenameChar) ++ "." ++
    (if formatId == "mp3" then "mp3" else "mp4")

theorem suffix_eq_of_length {α : Type} {l₁ l₂ xs : List α}
    (h₁ : l₁ <:+ xs) (h₂ : l₂ <:+ xs) (hlen : l₁.length = l₂.length) : l₁ = l₂ := by
  obtain ⟨t₁, rfl⟩ := h₁
  obtain ⟨t₂, ht⟩ := h₂
  have h1 : (t₁ ++ l₁).drop t₁.length = l₁ := List.drop_left t₁ l₁
  have h2 : (t₂ ++ l₂).drop t₂.length = l₂ := List.drop_left t₂ l₂
  have hlen2 : t₁.length = t₂.length := by
    have := congrArg List.length ht
    simp only [List.length_append] at this
    omega
  rw [ht, ← hlen2, h1] at h2
  exact h2

theorem downloadFilename_data (title formatId : String) :
    (downloadFilename title formatId).data =
      title.data.filter keepFilenameChar ++
        ('.' :: 'm' :: 'p' :: [if formatId = "mp3" then '3' else '4']) := by
  by_cases h : formatId = "mp3" <;>
    simp [downloadFilename, h, String.data_append]

/-- Claim C4, counterexample: for the title "Foo: Bar/Baz!" the derived base
name is "Foo BarBaz" — the slash is deleted, not replaced by a space — and not
the "Foo Bar Baz" the claim asserts. -/
theorem c4_counterexample :
    downloadFilename "Foo: Bar/Baz!" "mp3" = "Foo BarBaz.mp3" ∧
    downloadFilename "Foo: Bar/Baz!" "mp3" ≠ "Foo Bar Baz.mp3" := by decide

/-- Claim C4 (amended): the download filename is the title with every
character other than word characters, whitespace and hyphens deleted, followed
by ".mp3" exactly when the requested format is the literal "mp3" and ".mp4"
for any other format value; the title "Foo: Bar/Baz!" yields the base name
"Foo BarBaz". -/
theorem c4_filename_amended (title formatId : String) :
    (downloadFilename title formatId).data =
      title.data.filter keepFilenameChar ++
        ('.' :: 'm' :: 'p' :: [if formatId = "mp3" then '3' else '4']) ∧
    (['.', 'm', 'p', '3'] <:+ (downloadFilename title formatId).data ↔ formatId = "mp3") ∧
    (['.', 'm', 'p', '4'] <:+ (downloadFilename title formatId).data ↔ formatId ≠ "mp3") ∧
    downloadFilename "Foo: Bar/Baz!" "best" = "Foo BarBaz.mp4" := by
  have hdata := downloadFilename_data title formatId
  refine ⟨hdata, ?_, ?_, by decide⟩
  · constructor
    · intro hsuf
      by_contra h
      rw [if_neg h] at hdata
      have hsuf4 : ['.', 'm', 'p', '4'] <:+ (downloadFilename title formatId).data :=
        ⟨_, hdata.symm⟩
      have heq := suffix_eq_of_length hsuf hsuf4 rfl
      exact absurd heq (by decide)
    · intro h
      rw [if_pos h] at hdata
      exact ⟨_, hdata.symm⟩
  · constructor
    · intro hsuf h
      rw [if_pos h] at hdata
      have hsuf3 : ['.', 'm', 'p', '3'] <:+ (downloadFilename title formatId).data :=
        ⟨_, hdata.symm⟩
      have heq := suffix_eq_of_length hsuf hsuf3 rfl
      exact absurd heq (by decide)
    · intro h
      rw [if_neg h] at hdata
      exact ⟨_, hdata.symm⟩

/-- The fixed spoofed user agent passed to every tool invocation. -/
def userAgent : String :=
  "Mozilla/5.0 (Windows NT 10.0; Win64; x64) AppleWebKit/537.36 (KHTML, like Gecko) Chrome/120.0.0.0 Safari/537.36"

/-- The argument list built on lines 141-147, before the format-specific push. -/
def baseDownloadArgs (videoUrl : String) : List String :=
  [videoUrl, "--user-agent", userAgent, "--no-check-certificates",
   "--concurrent-fragments", "5", "--buffer-size", "16K"]

/-- The flags pushed on line 150 when the requested format is "mp3":
extract audio as mp3 at best quality. -/
def mp3Args : List String := ["-x", "--audio-format", "mp3", "--audio-quality", "0"]

/-- The format selector expression of line 152. -/
def formatSelectorArg (formatId : String) : String :=
  if formatId == "best" then "bestvideo+bestaudio/best" else formatId ++ "+bestaudio/best"

/-- The full tool argument list of the `/api/download` handler (lines 141-153). -/
def buildDownloadArgs (videoUrl formatId : String) : List String :=
  baseDownloadArgs videoUrl ++
    (if formatId == "mp3" then mp3Args else ["-f", formatSelectorArg formatId])

/-- Claim C5: the invocation argument list carries the mp3 extract-audio flags
exactly when the requested format is "mp3"; otherwise it ends with "-f" and
the selector "bestvideo+bestaudio/best" for the "best" sentinel, or
`formatId ++ "+bestaudio/best"` for any other identifier. -/
theorem c5_download_args (videoUrl formatId : String) :
    (mp3Args <:+ buildDownloadArgs videoUrl formatId ↔ formatId = "mp3") ∧
    (formatId = "best" →
      ["-f", "bestvideo+bestaudio/best"] <:+ buildDownloadArgs videoUrl formatId) ∧
    (formatId ≠ "mp3" → formatId ≠ "best" →
      ["-f", formatId ++ "+bestaudio/best"] <:+ buildDownloadArgs videoUrl formatId) := by
  refine ⟨⟨?_, ?_⟩, ?_, ?_⟩
  · intro hsuf
    by_contra hne
    obtain ⟨t, ht⟩ := hsuf
    have hb3 : (formatId == "mp3") = false := by simpa using hne
    have hlast1 : (buildDownloadArgs videoUrl formatId).getLast? = some "0" := by
      rw [← ht, List.getLast?_append]
      simp [mp3Args]
    have hlast2 : (buildDownloadArgs videoUrl formatId).getLast? =
        some (formatSelectorArg formatId) := by
      simp [buildDownloadArgs, hb3, List.getLast?_append]
    have hsel : formatSelectorArg formatId = "0" :=
      (Option.some.inj (hlast2.symm.trans hlast1))
    by_cases hb : formatId = "best"
    · rw [formatSelectorArg, if_pos (by simpa using hb)] at hsel
      exact absurd hsel (by decide)
    · rw [formatSelectorArg, if_neg (by simpa using hb)] at hsel
      have hlen := congrArg String.length hsel
      rw [String.length_append] at hlen
      have h15 : "+bestaudio/best".length = 15 := rfl
      have h1 : "0".length = 1 := rfl
      rw [h15, h1] at hlen
      omega
  · intro h
    rw [buildDownloadArgs, if_pos (by simpa using h)]
    exact List.suffix_append _ _
  · intro h
    have hne : formatId ≠ "mp3" := by rw [h]; decide
    rw [buildDownloadArgs, if_neg (by simpa using hne), formatSelectorArg,
      if_pos (by simpa using h)]
    exact List.suffix_append _ _
  · intro h1 h2
    rw [buildDownloadArgs, if_neg (by simpa using h1), formatSelectorArg,
      if_neg (by simpa using h2)]
    exact List.suffix_append _ _

/-- Witness for C5 at a concrete input. -/
theorem c5_witness :
    ["-f", "137" ++ "+bestaudio/best"] <:+ buildDownloadArgs "https://v.example/w" "137" :=
  (c5_download_args "https://v.example/w" "137").2.2 (by decide) (by decide)

/-- Metadata returned by the tool's metadata fetch (`getVideoInfo`); the
`formats` field is optional, matching the guard `metadata.formats || []` on
line 86. -/
structure VideoMetadata where
  title : String
  thumbnail : String := ""
  uploader : String := ""
  duration_string : String := ""
  formats : Option (List RawFormat) := none
deriving Repr

/-- Outcome of the `/api/info` handler: HTTP status, whether the External
Downloader Tool was invoked, and the JSON format list on success. -/
structure InfoOutcome where
  status : Nat
  invokedTool : Bool
  formats : Option (List PresentedFormat)
deriving Repr

/-- The `/api/info` handler (lines 74-117) over an abstract metadata fetch:
`if (!videoUrl)` rejects a missing (or empty, both falsy) `url` query
parameter with 400 before the tool is touched; a fetch failure becomes 500;
otherwise the format pipeline runs on `metadata.formats || []`. -/
def infoHandler (urlParam : Option String)
    (fetch : String → Except String VideoMetadata) : InfoOutcome :=
  match urlParam with
  | none => { status := 400, invokedTool := false, formats := none }
  | some u =>
    if u = "" then { status := 400, invokedTool := false, formats := none }
    else
      match fetch u with
      | .error _ => { status := 500, invokedTool := true, formats := none }
      | .ok md => { status := 200, invokedTool := true,
                    formats := some (selectFormats (md.formats.getD [])) }

/-- Claim C7: a request to `/api/info` whose query has no `url` parameter gets
status 400 and the External Downloader Tool is never invoked, whatever the
fetch would return. -/
theorem c7_info_missing_url (fetch : String → Except String VideoMetadata) :
    (infoHandler none fetch).status = 400 ∧
    (infoHandler none fetch).invokedTool = false :=
  ⟨rfl, rfl⟩

/-- Truthiness of a JS number-or-undefined value: `0` and `undefined` are
falsy. -/
def jsTruthyNum : Option Nat → Bool
  | none => false
  | some n => n != 0

/-- Value of the JS expression `x || y` on numbers-or-undefined. -/
def jsOrNum (x y : Option Nat) : Option Nat := if jsTruthyNum x then x else y

/-- The Content-Length hint of lines 155-158: look up the requested format id
in the original raw format list with `.find`, and when
`filesize || filesize_approx` is truthy set the header to that value. -/
def contentLengthHint (formats : List RawFormat) (formatId : String) : Option Nat :=
  match formats.find? (fun f => f.format_id == formatId) with
  | none => none
  | some t =>
    if jsTruthyNum (jsOrNum t.filesize t.filesize_approx) then
      jsOrNum t.filesize t.filesize_approx
    else none

/-- A raw format whose exact size is the falsy number 0 next to a nonzero
approximate size. -/
def zeroSizeFormat : RawFormat :=
  { format_id := "22", ext := "mp4", resolution := "1280x720", height := some 720,
    vcodec := "avc1", filesize := some 0, filesize_approx := some 5 }

/-- Claim C8, counterexample: the matched entry carries the exact size 0, so
the claim requires the Content-Length value 0, but JS `||` skips the falsy
exact size and the code sets the approximate size 5 instead. -/
theorem c8_counterexample :
    zeroSizeFormat.format_id = "22" ∧ zeroSizeFormat.filesize = some 0 ∧
    contentLengthHint [zeroSizeFormat] "22" = some 5 ∧
    (some 5 : Option Nat) ≠ some 0 := by decide

/-- Claim C8 (amended): the Content-Length header is set iff the first raw
format entry whose id equals the requested id exists and carries a nonzero
exact size, or carries a falsy (absent or zero) exact size and a nonzero
approximate size; when set, its value is the exact size when that is nonzero
and the approximate size otherwise. -/
theorem c8_content_length_amended (formats : List RawFormat) (formatId : String) (v : Nat) :
    contentLengthHint formats formatId = some v ↔
      ∃ t, formats.find? (fun f => f.format_id == formatId) = some t ∧
        ((t.filesize = some v ∧ v ≠ 0) ∨
         (jsTruthyNum t.filesize = false ∧ t.filesize_approx = some v ∧ v ≠ 0)) := by
  unfold contentLengthHint
  cases hf : formats.find? (fun f => f.format_id == formatId) with
  | none => simp
  | some t =>
    simp only [Option.some.injEq, exists_eq_left']
    rcases hfs : t.filesize with _ | n
    · rcases hfa : t.filesize_approx with _ | m
      · simp [jsOrNum, jsTruthyNum, hfs, hfa]
      · by_cases hm : m = 0 <;>
          simp [jsOrNum, jsTruthyNum, hfs, hfa, hm] <;> omega
    · by_cases hn : n = 0
      · rcases hfa : t.filesize_approx with _ | m
        · simp [jsOrNum, jsTruthyNum, hfs, hfa, hn]
          omega
        · by_cases hm : m = 0 <;>
            simp [jsOrNum, jsTruthyNum, hfs, hfa, hn, hm] <;> omega
      · simp [jsOrNum, jsTruthyNum, hfs, hn]
        omega

/-- The limiter window of line 27: `1 * 60 * 1000` milliseconds. -/
def limiterWindowMs : Nat := 1 * 60 * 1000

/-- The limiter ceiling of line 28: 10 requests per window per client. -/
def limiterMax : Nat := 10

/-- The structured error message of line 29. -/
def rateLimitMessage : String := "Too many requests, please try again after a minute."

/-- One incoming HTTP request: arrival time in milliseconds, client network
address, request path. -/
structure Request where
  timeMs : Nat
  client : String
  path : String
deriving DecidableEq, Repr

/-- Whether a path falls under the limiter mount `app.use('/api/', limiter)`
of line 35; static asset and redirect routes do not. -/
def isApiPath (p : String) : Bool :=
  p == "/api" || List.isPrefixOf "/api/".data p.data

/-- Modelled from the spec: the fixed windows of the third-party
`express-rate-limit` middleware (whose implementation is not part of this
repository's sources).  Spec 4.4: "Fixed-window limiter keyed by client
network address: at most 10 requests per 60-second window". -/
def windowIndex (tMs : Nat) : Nat := tMs / limiterWindowMs

/-- Modelled from the spec: whether an earlier request `q` counts toward the
limiter counter consulted for request `r` — same client address, under the
limiter mount, same fixed window.  Every arrival counts, whether it was served
or rejected. -/
def countsWith (r q : Request) : Bool :=
  q.client == r.client && isApiPath q.path &&
    (windowIndex q.timeMs == windowIndex r.timeMs)

/-- The limiter counter consulted for `r` after the earlier requests `prev`. -/
def priorWindowCount (prev : List Request) (r : Request) : Nat :=
  (prev.filter (countsWith r)).length

/-- Outcome of routing one request through the limiter. -/
inductive RouteOutcome where
  | handled
  | rateLimited (message : String)
deriving DecidableEq, Repr

/-- Modelled from the spec: route one request.  A request under the `/api/`
mount whose client address already has `limiterMax` counted arrivals in the
current window is answered with the structured rate-limit error, no downstream
handler being invoked; every other request reaches the downstream handlers. -/
def routeRequest (prev : List Request) (r : Request) : RouteOutcome :=
  if isApiPath r.path ∧ limiterMax ≤ priorWindowCount prev r then
    RouteOutcome.rateLimited rateLimitMessage
  else RouteOutcome.handled

/-- Modelled from the spec: process a trace of requests in arrival order,
recording for each whether it reached a downstream handler. -/
def processTrace (prev : List Request) : List Request → List (Request × RouteOutcome)
  | [] => []
  | r :: rest => (r, routeRequest prev r) :: processTrace (prev ++ [r]) rest

/-- Whether a request belongs to a given client address and window and falls
under the limiter mount. -/
def matchesWindow (c : String) (w : Nat) (q : Request) : Bool :=
  q.client == c && isApiPath q.path && (windowIndex q.timeMs == w)

/-- The arrivals for a client and window under the mount in a request list. -/
def apiArrivals (prev : List Request) (c : String) (w : Nat) : Nat :=
  (prev.filter (matchesWindow c w)).length

/-- How many requests of a processed trace reached a downstream handler for a
given client address and window, under the mount. -/
def handledApiCount (l : List (Request × RouteOutcome)) (c : String) (w : Nat) : Nat :=
  (l.filter (fun p => matchesWindow c w p.1 && p.2 == RouteOutcome.handled)).length

theorem handledApiCount_bound (rest : List Request) :
    ∀ (prev : List Request) (c : String) (w : Nat),
      handledApiCount (processTrace prev rest) c w +
        min limiterMax (apiArrivals prev c w) ≤ limiterMax := by
  induction rest with
  | nil =>
    intro prev c w
    simp only [processTrace, handledApiCount, List.filter_nil, List.length_nil, Nat.zero_add]
    exact Nat.min_le_left _ _
  | cons r rest ih =>
    intro prev c w
    have hsplit : processTrace prev (r :: rest) =
        (r, routeRequest prev r) :: processTrace (prev ++ [r]) rest := rfl
    rw [hsplit]
    by_cases hm : matchesWindow c w r = true
    · have hparts : (r.client = c ∧ isApiPath r.path = true) ∧ windowIndex r.timeMs = w := by
        have := hm
        simp only [matchesWindow, Bool.and_eq_true, beq_iff_eq] at this
        exact this
      obtain ⟨⟨hc, hp⟩, hw⟩ := hparts
      have hcount : priorWindowCount prev r = apiArrivals prev c w := by
        unfold priorWindowCount apiArrivals
        congr 1
        apply List.filter_congr
        intro q hq
        unfold countsWith matchesWindow
        rw [hc, hw]
      have harr : apiArrivals (prev ++ [r]) c w = apiArrivals prev c w + 1 := by
        unfold apiArrivals
        rw [List.filter_append]
        simp [hm]
      have ih1 := ih (prev ++ [r]) c w
      rw [harr] at ih1
      by_cases hle : limiterMax ≤ priorWindowCount prev r
      · have hroute : routeRequest prev r = RouteOutcome.rateLimited rateLimitMessage := by
          unfold routeRequest
          rw [if_pos ⟨hp, hle⟩]
        rw [hroute]
        have hhead : handledApiCount
            ((r, RouteOutcome.rateLimited rateLimitMessage) ::
              processTrace (prev ++ [r]) rest) c w =
            handledApiCount (processTrace (prev ++ [r]) rest) c w := by
          unfold handledApiCount
          rw [List.filter_cons]
          simp
        rw [hhead]
        rw [hcount] at hle
        omega
      · have hroute : routeRequest prev r = RouteOutcome.handled := by
          unfold routeRequest
          rw [if_neg]
          intro hcontra
          exact hle hcontra.2
        rw [hroute]
        have hhead : handledApiCount
            ((r, RouteOutcome.handled) :: processTrace (prev ++ [r]) rest) c w =
            handledApiCount (processTrace (prev ++ [r]) rest) c w + 1 := by
          unfold handledApiCount
          rw [List.filter_cons]
          simp [hm]
        rw [hhead]
        rw [hcount] at hle
        omega
    · have hm' : matchesWindow c w r = false := by
        cases hv : matchesWindow c w r
        · rfl
        · exact absurd hv hm
      have harr : apiArrivals (prev ++ [r]) c w = apiArrivals prev c w := by
        unfold apiArrivals
        rw [List.filter_append]
        simp [hm']
      have hhead : handledApiCount
          ((r, routeRequest prev r) :: processTrace (prev ++ [r]) rest) c w =
          handledApiCount (processTrace (prev ++ [r]) rest) c w := by
        unfold handledApiCount
        rw [List.filter_cons]
        simp [hm']
      rw [hhead]
      have ih1 := ih (prev ++ [r]) c w
      rw [harr] at ih1
      exact ih1

/-- Claim C6: over any trace of requests, at most 10 requests per client
address reach downstream handlers within one 60-second fixed window of the API
namespace; a request whose client already has 10 counted arrivals in the
window is answered with the structured rate-limit error and no downstream
handler runs; requests outside the `/api/` mount are never rate limited.
The limiter internals are modelled from the spec (they live in the
`express-rate-limit` dependency); the window length, the ceiling, the message
and the mount path are the configuration of lines 26-35. -/
theorem c6_rate_limiter :
    (∀ (trace : List Request) (c : String) (w : Nat),
      handledApiCount (processTrace [] trace) c w ≤ limiterMax) ∧
    (∀ (prev : List Request) (r : Request), isApiPath r.path = true →
      limiterMax ≤ priorWindowCount prev r →
      routeRequest prev r = RouteOutcome.rateLimited rateLimitMessage) ∧
    (∀ (prev : List Request) (r : Request), isApiPath r.path = false →
      routeRequest prev r = RouteOutcome.handled) := by
  refine ⟨?_, ?_, ?_⟩
  · intro trace c w
    have h := handledApiCount_bound trace [] c w
    have h0 : apiArrivals [] c w = 0 := rfl
    rw [h0] at h
    omega
  · intro prev r hp hle
    unfold routeRequest
    rw [if_pos ⟨hp, hle⟩]
  · intro prev r hp
    unfold routeRequest
    rw [if_neg]
    intro hcontra
    have h1 := hcontra.1
    rw [hp] at h1
    simp at h1

/-- Ten API requests from one client address inside one fixed window. -/
def tenRequests : List Request :=
  [⟨1000, "10.0.0.1", "/api/info"⟩, ⟨2000, "10.0.0.1", "/api/info"⟩,
   ⟨3000, "10.0.0.1", "/api/info"⟩, ⟨4000, "10.0.0.1", "/api/info"⟩,
   ⟨5000, "10.0.0.1", "/api/info"⟩, ⟨6000, "10.0.0.1", "/api/info"⟩,
   ⟨7000, "10.0.0.1", "/api/info"⟩, ⟨8000, "10.0.0.1", "/api/info"⟩,
   ⟨9000, "10.0.0.1", "/api/download"⟩, ⟨10000, "10.0.0.1", "/api/download"⟩]

/-- Witness for C6: the 11th request of a client within one window receives
the structured rate-limit error. -/
theorem c6_witness :
    routeRequest tenRequests ⟨11000, "10.0.0.1", "/api/info"⟩ =
      RouteOutcome.rateLimited rateLimitMessage :=
  c6_rate_limiter.2.1 tenRequests ⟨11000, "10.0.0.1", "/api/info"⟩ (by decide) (by decide)
